import Mathlib

/-
Verification of the HouseAreaCalc application (src/app.py).

The numeric computations of the program (feet-and-inch conversion, room
areas, aggregate totals) are embedded over the rationals; the property
store (a Python dict persisted to a JSON file) is embedded as an
insertion-ordered association list together with an explicit file state.
-/

namespace HouseAreaCalc

/-- One row of the summary table built in the dimensions loop of app.py
(lines 131-137): room name, category, converted length and breadth in
decimal feet, and the derived area in square feet. -/
structure RoomRecord where
  room : String
  category : String
  length_ft : ℚ
  breadth_ft : ℚ
  area_sqft : ℚ
  deriving DecidableEq, Repr, Inhabited

/-- One room's raw inputs as entered in the form (app.py lines 117-124):
the category label, the short-form room name, the 1-based index within the
category, and the four dimension fields (feet and inches for length and
breadth). -/
structure RoomInput where
  category : String
  shortForm : String
  idx : Nat
  L_ft : ℚ
  L_in : ℚ
  B_ft : ℚ
  B_in : ℚ
  deriving DecidableEq, Repr, Inhabited

/-- app.py line 35-36: `def to_feet(ft, inch): return ft + inch / 12`. -/
def to_feet (ft inch : ℚ) : ℚ :=
  ft + inch / 12

/-- app.py line 38-39:
`def room_area(l_ft, l_in, b_ft, b_in): return to_feet(l_ft, l_in) * to_feet(b_ft, b_in)`. -/
def room_area (l_ft l_in b_ft b_in : ℚ) : ℚ :=
  to_feet l_ft l_in * to_feet b_ft b_in

/-- The summary-row dictionary appended for one room (app.py lines 131-137). -/
def mkSummaryRow (r : RoomInput) : RoomRecord :=
  { room := r.shortForm ++ " " ++ toString r.idx
    category := r.category
    length_ft := to_feet r.L_ft r.L_in
    breadth_ft := to_feet r.B_ft r.B_in
    area_sqft := room_area r.L_ft r.L_in r.B_ft r.B_in }

/-- One iteration of the dimensions loop (app.py lines 126-137): the
accumulator holds the summary list so far and the running `total_area`;
the room's area is added to the total and its row appended to the list. -/
def summaryStep (acc : List RoomRecord × ℚ) (r : RoomInput) : List RoomRecord × ℚ :=
  (acc.1 ++ [mkSummaryRow r], acc.2 + room_area r.L_ft r.L_in r.B_ft r.B_in)

/-- The whole dimensions loop (app.py lines 109-137): starting from the
empty summary and `total_area = 0`, fold `summaryStep` over the rooms in
input order. Returns the summary list and `total_area`. -/
def buildSummary (inputs : List RoomInput) : List RoomRecord × ℚ :=
  inputs.foldl summaryStep ([], 0)

/-- The four aggregate figures displayed and saved (app.py lines 165-176,
187-190). -/
structure Totals where
  total_sqft : ℚ
  total_sqyd : ℚ
  claimed_area : ℚ
  claimed_area_sqyd : ℚ
  deriving DecidableEq, Repr

/-- app.py lines 166-168 and 176/190: `total_sqft = total_area`,
`total_sqyd = total_sqft / 9`, `claimed_area = total_sqft / 0.75`, and the
square-yard claimed figure `claimed_area / 9`. -/
def computeTotals (total_area : ℚ) : Totals :=
  { total_sqft := total_area
    total_sqyd := total_area / 9
    claimed_area := total_area / 0.75
    claimed_area_sqyd := (total_area / 0.75) / 9 }

lemma buildSummary_fold (l : List RoomInput) (acc : List RoomRecord) (t : ℚ) :
    l.foldl summaryStep (acc, t) =
      (acc ++ l.map mkSummaryRow,
       t + (l.map (fun r => room_area r.L_ft r.L_in r.B_ft r.B_in)).sum) := by
  induction l generalizing acc t with
  | nil => simp
  | cons r rs ih =>
      simp only [List.foldl_cons, summaryStep, ih, List.map_cons, List.sum_cons, Prod.mk.injEq]
      exact ⟨by simp, by ring⟩

lemma buildSummary_fst (inputs : List RoomInput) :
    (buildSummary inputs).1 = inputs.map mkSummaryRow := by
  simp [buildSummary, buildSummary_fold]

lemma buildSummary_snd (inputs : List RoomInput) :
    (buildSummary inputs).2 =
      (inputs.map (fun r => room_area r.L_ft r.L_in r.B_ft r.B_in)).sum := by
  simp [buildSummary, buildSummary_fold]

lemma area_mkSummaryRow (r : RoomInput) :
    (mkSummaryRow r).area_sqft = room_area r.L_ft r.L_in r.B_ft r.B_in := rfl

lemma buildSummary_snd_eq_sum_areas (inputs : List RoomInput) :
    (buildSummary inputs).2 = ((buildSummary inputs).1.map (fun r => r.area_sqft)).sum := by
  rw [buildSummary_snd, buildSummary_fst, List.map_map]
  rfl

/-- C1: for every ordered sequence of room records, the aggregate
computation returns `total_sqft` equal to the sum of all rooms'
`area_sqft` (zero-area rooms included), `total_sqyd = total_sqft / 9`,
`claimed_sqft = total_sqft / 0.75`, `claimed_sqyd = claimed_sqft / 9`;
equivalently `claimed_sqft * 0.75 = total_sqft`. -/
theorem aggregate_totals_correct (inputs : List RoomInput) :
    (computeTotals (buildSummary inputs).2).total_sqft =
        ((buildSummary inputs).1.map (fun r => r.area_sqft)).sum ∧
    (computeTotals (buildSummary inputs).2).total_sqyd =
        (computeTotals (buildSummary inputs).2).total_sqft / 9 ∧
    (computeTotals (buildSummary inputs).2).claimed_area =
        (computeTotals (buildSummary inputs).2).total_sqft / 0.75 ∧
    (computeTotals (buildSummary inputs).2).claimed_area_sqyd =
        (computeTotals (buildSummary inputs).2).claimed_area / 9 ∧
    (computeTotals (buildSummary inputs).2).claimed_area * 0.75 =
        (computeTotals (buildSummary inputs).2).total_sqft := by
  refine ⟨buildSummary_snd_eq_sum_areas inputs, rfl, rfl, rfl, ?_⟩
  show (buildSummary inputs).2 / 0.75 * 0.75 = (buildSummary inputs).2
  rw [div_mul_cancel₀]
  norm_num

/-- C2: for every non-negative whole-unit count `u` and sub-unit count `s`
(with `s` not restricted to the range 0-11), `to_feet u s` returns exactly
`u + s / 12`, as a pure function with no error conditions. -/
theorem to_feet_correct (u s : ℚ) (hu : 0 ≤ u) (hs : 0 ≤ s) :
    to_feet u s = u + s / 12 := rfl

/-- Witness for C2 at `u = 10`, `s = 6`: both hypotheses hold and the
result is the claimed value `10.5`. -/
theorem to_feet_correct_witness :
    (0 : ℚ) ≤ 10 ∧ (0 : ℚ) ≤ 6 ∧ to_feet 10 6 = 10 + 6 / 12 :=
  ⟨by norm_num, by norm_num, to_feet_correct 10 6 (by norm_num) (by norm_num)⟩

/-- One rectangle placed by `draw_floorplan` (app.py line 53): top-left
corner `(x, y)`, width = converted length, height = converted breadth.
The vertical axis increases downward (the plot inverts the y axis). -/
structure Placement where
  x : ℚ
  y : ℚ
  width : ℚ
  height : ℚ
  deriving DecidableEq, Repr, Inhabited

/-- The loop body of `draw_floorplan` (app.py lines 47-60): each room is
placed at `(0, offset_y)` with width `Length (ft)` and height
`Breadth (ft)`, and the offset advances by `Breadth (ft) + 1`. -/
def floorplanRects : List RoomRecord → ℚ → List Placement
  | [], _ => []
  | r :: rs, offset_y =>
      ⟨0, offset_y, r.length_ft, r.breadth_ft⟩ :: floorplanRects rs (offset_y + r.breadth_ft + 1)

/-- app.py lines 41-68: the placements produced for the summary rows,
starting from `offset_y = 0`. -/
def draw_floorplan (rooms : List RoomRecord) : List Placement :=
  floorplanRects rooms 0

/-- Default record used only as the `getD` fallback in statements. -/
def noRoom : RoomRecord := ⟨"", "", 0, 0, 0⟩

/-- Default input used only as the `getD` fallback in statements. -/
def noInput : RoomInput := ⟨"", "", 0, 0, 0, 0, 0⟩

/-- Default placement used only as the `getD` fallback in statements. -/
def noPlacement : Placement := ⟨0, 0, 0, 0⟩

/-- The running `offset_y` at which room `i` is placed: the sum of
`breadth + 1` over the rooms before it. -/
def stackOffset (rooms : List RoomRecord) (i : Nat) : ℚ :=
  ((rooms.take i).map (fun r => r.breadth_ft + 1)).sum

lemma floorplanRects_length (rooms : List RoomRecord) (off : ℚ) :
    (floorplanRects rooms off).length = rooms.length := by
  induction rooms generalizing off with
  | nil => rfl
  | cons r rs ih => simp [floorplanRects, ih]

lemma floorplanRects_getD (rooms : List RoomRecord) (off : ℚ) (i : Nat)
    (h : i < rooms.length) :
    (floorplanRects rooms off).getD i noPlacement =
      ⟨0, off + stackOffset rooms i,
       (rooms.getD i noRoom).length_ft, (rooms.getD i noRoom).breadth_ft⟩ := by
  induction rooms generalizing off i with
  | nil => simp at h
  | cons r rs ih =>
      cases i with
      | zero => simp [floorplanRects, stackOffset]
      | succ n =>
          have hn : n < rs.length := by simpa using h
          simp only [floorplanRects, List.getD_cons_succ, ih (off + r.breadth_ft + 1) n hn,
            stackOffset, List.take_succ_cons, List.map_cons, List.sum_cons, Placement.mk.injEq]
          exact ⟨trivial, by ring, trivial, trivial⟩

lemma breadth_nonneg_getD (rooms : List RoomRecord)
    (hb : ∀ r ∈ rooms, 0 ≤ r.breadth_ft) (i : Nat) (h : i < rooms.length) :
    0 ≤ (rooms.getD i noRoom).breadth_ft := by
  rw [List.getD_eq_getElem rooms noRoom h]
  exact hb _ (List.getElem_mem h)

lemma stackOffset_succ (rooms : List RoomRecord) (i : Nat) (h : i < rooms.length) :
    stackOffset rooms (i + 1) =
      stackOffset rooms i + ((rooms.getD i noRoom).breadth_ft + 1) := by
  unfold stackOffset
  simp only [List.map_take]
  rw [List.sum_take_succ _ i (by simpa using h), List.getElem_map,
    List.getD_eq_getElem rooms noRoom h]

lemma stackOffset_mono (rooms : List RoomRecord)
    (hb : ∀ r ∈ rooms, 0 ≤ r.breadth_ft) (i : Nat) :
    ∀ j, i ≤ j → j ≤ rooms.length → stackOffset rooms i ≤ stackOffset rooms j := by
  intro j
  induction j with
  | zero =>
      intro hij _
      have h0 : i = 0 := Nat.le_zero.mp hij
      simp [h0]
  | succ n ih =>
      intro hij hj
      by_cases heq : i = n + 1
      · exact heq ▸ le_refl _
      · have hin : i ≤ n := by omega
        have h1 : stackOffset rooms i ≤ stackOffset rooms n := ih hin (by omega)
        have h2 := stackOffset_succ rooms n (by omega)
        have h3 := breadth_nonneg_getD rooms hb n (by omega)
        linarith

lemma stackOffset_gap (rooms : List RoomRecord)
    (hb : ∀ r ∈ rooms, 0 ≤ r.breadth_ft) (i j : Nat) (hij : i < j)
    (hj : j ≤ rooms.length) :
    stackOffset rooms i + (rooms.getD i noRoom).breadth_ft + 1 ≤ stackOffset rooms j := by
  have hi : i < rooms.length := lt_of_lt_of_le hij hj
  have h1 := stackOffset_succ rooms i hi
  have h2 := stackOffset_mono rooms hb (i + 1) j hij hj
  linarith

/-- C3: the layout generator places the first room's top-left corner at
(0,0) and each subsequent room directly below the previous one with a
fixed 1-unit gap (the offset advances by `breadth_ft + 1`); consequently,
for rooms at list positions `i < j`, room `j`'s `y` coordinate is at least
room `i`'s `y + height + 1` (no overlap along the stacking axis). -/
theorem floorplan_stacking (rooms : List RoomRecord)
    (hb : ∀ r ∈ rooms, 0 ≤ r.breadth_ft) :
    (rooms ≠ [] →
      ((draw_floorplan rooms).getD 0 noPlacement).x = 0 ∧
      ((draw_floorplan rooms).getD 0 noPlacement).y = 0) ∧
    (∀ i, i + 1 < rooms.length →
      ((draw_floorplan rooms).getD (i + 1) noPlacement).y =
        ((draw_floorplan rooms).getD i noPlacement).y +
          ((draw_floorplan rooms).getD i noPlacement).height + 1) ∧
    (∀ i j, i < j → j < rooms.length →
      ((draw_floorplan rooms).getD i noPlacement).y +
          ((draw_floorplan rooms).getD i noPlacement).height + 1 ≤
        ((draw_floorplan rooms).getD j noPlacement).y) := by
  refine ⟨?_, ?_, ?_⟩
  · intro hne
    have h0 : 0 < rooms.length := List.length_pos.mpr hne
    rw [draw_floorplan, floorplanRects_getD rooms 0 0 h0]
    simp [stackOffset]
  · intro i hi
    have hi' : i < rooms.length := by omega
    rw [draw_floorplan, floorplanRects_getD rooms 0 (i + 1) hi,
      floorplanRects_getD rooms 0 i hi', stackOffset_succ rooms i hi']
    dsimp only
    ring
  · intro i j hij hj
    have hi : i < rooms.length := hij.trans hj
    rw [draw_floorplan, floorplanRects_getD rooms 0 i hi, floorplanRects_getD rooms 0 j hj]
    dsimp only
    have hgap := stackOffset_gap rooms hb i j hij (le_of_lt hj)
    linarith

/-- A concrete two-room summary used by witnesses: a 10 ft by 8 ft bedroom
and a 7 ft by 5 ft kitchen. -/
def demoRoomA : RoomRecord := ⟨"Bedroom 1", "Bedrooms", 10, 8, 80⟩

/-- Second concrete room used by witnesses. -/
def demoRoomB : RoomRecord := ⟨"Kitchen 1", "Kitchen", 7, 5, 35⟩

/-- Witness for C3 on a concrete two-room list: the breadths are
non-negative and the second placement starts at least one unit below the
bottom of the first. -/
theorem floorplan_stacking_witness :
    (0 : ℚ) ≤ demoRoomA.breadth_ft ∧ (0 : ℚ) ≤ demoRoomB.breadth_ft ∧
    ((draw_floorplan [demoRoomA, demoRoomB]).getD 0 noPlacement).y +
        ((draw_floorplan [demoRoomA, demoRoomB]).getD 0 noPlacement).height + 1 ≤
      ((draw_floorplan [demoRoomA, demoRoomB]).getD 1 noPlacement).y := by
  have hb : ∀ r ∈ [demoRoomA, demoRoomB], 0 ≤ r.breadth_ft := by
    norm_num [demoRoomA, demoRoomB]
  exact ⟨by norm_num [demoRoomA], by norm_num [demoRoomB],
    (floorplan_stacking [demoRoomA, demoRoomB] hb).2.2 0 1 (by decide) (by decide)⟩

/-- C7: a room whose converted length or breadth is zero has
`area_sqft = 0`, and it is still included (not filtered out) in the
summary list, the aggregate total, and the layout output. -/
theorem zero_dim_room_included (inputs : List RoomInput) (i : Nat)
    (h : i < inputs.length)
    (hz : to_feet (inputs.getD i noInput).L_ft (inputs.getD i noInput).L_in = 0 ∨
          to_feet (inputs.getD i noInput).B_ft (inputs.getD i noInput).B_in = 0) :
    ((buildSummary inputs).1.getD i noRoom).area_sqft = 0 ∧
    (buildSummary inputs).1.length = inputs.length ∧
    (buildSummary inputs).1.getD i noRoom ∈ (buildSummary inputs).1 ∧
    (buildSummary inputs).2 = ((buildSummary inputs).1.map (fun r => r.area_sqft)).sum ∧
    (draw_floorplan (buildSummary inputs).1).length = inputs.length := by
  have hlen : (buildSummary inputs).1.length = inputs.length := by
    rw [buildSummary_fst]; simp
  have hi' : i < (buildSummary inputs).1.length := by rw [hlen]; exact h
  have hget : (buildSummary inputs).1.getD i noRoom =
      mkSummaryRow (inputs.getD i noInput) := by
    rw [List.getD_eq_getElem _ noRoom hi', List.getD_eq_getElem _ noInput h]
    simp only [buildSummary_fst, List.getElem_map]
  refine ⟨?_, hlen, ?_, buildSummary_snd_eq_sum_areas inputs, ?_⟩
  · rw [hget, area_mkSummaryRow]
    unfold room_area
    rcases hz with hz | hz
    · rw [hz, zero_mul]
    · rw [hz, mul_zero]
  · rw [List.getD_eq_getElem _ noRoom hi']
    exact List.getElem_mem hi'
  · rw [draw_floorplan, floorplanRects_length, hlen]

/-- A concrete one-room input list whose single room has zero converted
length, used by the C7 witness. -/
def demoZeroInputs : List RoomInput := [⟨"Bedrooms", "Bedroom", 1, 0, 0, 8, 0⟩]

/-- Witness for C7 on a concrete input whose length is 0 ft 0 in: the
hypotheses hold and the produced row has zero area while the summary,
aggregate and layout still include it. -/
theorem zero_dim_room_included_witness :
    0 < demoZeroInputs.length ∧
    to_feet (demoZeroInputs.getD 0 noInput).L_ft (demoZeroInputs.getD 0 noInput).L_in = 0 ∧
    ((buildSummary demoZeroInputs).1.getD 0 noRoom).area_sqft = 0 ∧
    (buildSummary demoZeroInputs).1.length = demoZeroInputs.length ∧
    (draw_floorplan (buildSummary demoZeroInputs).1).length = demoZeroInputs.length := by
  have hz : to_feet (demoZeroInputs.getD 0 noInput).L_ft
      (demoZeroInputs.getD 0 noInput).L_in = 0 := by
    norm_num [demoZeroInputs, noInput, to_feet]
  have hmain := zero_dim_room_included demoZeroInputs 0 (by decide) (Or.inl hz)
  exact ⟨by decide, hz, hmain.1, hmain.2.1, hmain.2.2.2.2⟩

/-- C10: the aggregate figures are invariant under reordering of the room
list: permuting the inputs leaves `total_sqft`, `total_sqyd`,
`claimed_area` and `claimed_area_sqyd` unchanged. -/
theorem totals_perm_invariant (inputs inputs' : List RoomInput)
    (h : inputs.Perm inputs') :
    computeTotals (buildSummary inputs).2 = computeTotals (buildSummary inputs').2 := by
  have hsum : (buildSummary inputs).2 = (buildSummary inputs').2 := by
    rw [buildSummary_snd, buildSummary_snd]
    exact List.Perm.sum_eq (h.map _)
  rw [hsum]

/-- A concrete room input used by the C10 witness. -/
def demoInputA : RoomInput := ⟨"Bedrooms", "Bedroom", 1, 10, 6, 8, 0⟩

/-- Second concrete room input used by the C10 witness. -/
def demoInputB : RoomInput := ⟨"Kitchen", "Kitchen", 1, 7, 0, 5, 6⟩

/-- Witness for C10: swapping two concrete rooms is a permutation and
yields identical aggregate figures. -/
theorem totals_perm_invariant_witness :
    ([demoInputA, demoInputB]).Perm [demoInputB, demoInputA] ∧
    computeTotals (buildSummary [demoInputA, demoInputB]).2 =
      computeTotals (buildSummary [demoInputB, demoInputA]).2 :=
  ⟨List.Perm.swap demoInputB demoInputA [],
    totals_perm_invariant _ _ (List.Perm.swap demoInputB demoInputA [])⟩

/-- A saved property record (app.py lines 185-191): the room rows and the
four aggregate figures frozen at save time. -/
structure PropertyRecord where
  rooms : List RoomRecord
  total_sqft : ℚ
  total_sqyd : ℚ
  claimed_area : ℚ
  claimed_area_sqyd : ℚ
  deriving DecidableEq, Repr

/-- The in-memory `properties_data` mapping (a Python dict from property
name to record), modelled as an insertion-ordered association list. -/
abbrev PropertiesData := List (String × PropertyRecord)

/-- Python dict assignment `properties_data[name] = record`
(app.py line 185): replace the binding in place when the key is already
present, otherwise append a new binding at the end. -/
def storeInsert : PropertiesData → String → PropertyRecord → PropertiesData
  | [], k, v => [(k, v)]
  | (k₀, v₀) :: rest, k, v =>
      if k₀ = k then (k, v) :: rest else (k₀, v₀) :: storeInsert rest k v

/-- Python dict lookup, as an optional result. -/
def storeLookup : PropertiesData → String → Option PropertyRecord
  | [], _ => none
  | (k₀, v₀) :: rest, k => if k₀ = k then some v₀ else storeLookup rest k

/-- The state of the backing `properties.json` file: absent, present but
not parseable as JSON, or holding a serialized mapping. The JSON encoding
itself is external to the core (the `json.dump` / `json.load` round-trip
is assumed faithful), so the stored mapping is kept directly. -/
inductive FileState where
  | missing
  | corrupt
  | stored (data : PropertiesData)
  deriving DecidableEq, Repr

/-- app.py lines 20-24: `load_properties` returns the parsed file content
when the file exists and `{}` when it does not. A file that exists but
cannot be parsed makes `json.load` raise, and nothing catches the
exception; this is modelled as an error result. -/
def load_properties : FileState → Except String PropertiesData
  | .missing => .ok []
  | .corrupt => .error "json.decoder.JSONDecodeError"
  | .stored data => .ok data

/-- app.py lines 26-28: `save_properties` rewrites the whole file with the
given mapping, regardless of what the file held before. -/
def save_properties (data : PropertiesData) (_fs : FileState) : FileState :=
  .stored data

/-- Python `str.strip()` modelled on the character list: whitespace is
dropped from both ends. (`String.trim` is extensionally the same but is
not kernel-reducible, so the embedding uses this executable form.) -/
def stripChars (s : String) : String :=
  ⟨((s.data.dropWhile Char.isWhitespace).reverse.dropWhile Char.isWhitespace).reverse⟩

/-- The guard of the Save Property block (app.py line 183):
`if not df.empty and property_name.strip():` — the summary must be
non-empty and the stripped name truthy (non-empty). -/
def saveAllowed (summary : List RoomRecord) (property_name : String) : Bool :=
  !summary.isEmpty && !(stripChars property_name).data.isEmpty

/-- The record written on save (app.py lines 185-191): the summary rows
together with `total_sqft = total_area`, `total_sqyd = total_sqft / 9`,
`claimed_area = total_sqft / 0.75` and `claimed_area / 9` (lines 166-168,
190). -/
def mkPropertyRecord (summary : List RoomRecord) (total_area : ℚ) : PropertyRecord :=
  { rooms := summary
    total_sqft := total_area
    total_sqyd := total_area / 9
    claimed_area := total_area / 0.75
    claimed_area_sqyd := (total_area / 0.75) / 9 }

/-- The Save Property block (app.py lines 183-193) as a state transition
on the in-memory mapping and the file: when the guard holds, the record of
the current summary is bound to the raw `property_name` and the whole
mapping is rewritten to the file; otherwise nothing happens. -/
def savePropertyStep (properties_data : PropertiesData) (fs : FileState)
    (property_name : String) (summary : List RoomRecord) (total_area : ℚ) :
    PropertiesData × FileState :=
  if saveAllowed summary property_name then
    let newData :=
      storeInsert properties_data property_name (mkPropertyRecord summary total_area)
    (newData, save_properties newData fs)
  else
    (properties_data, fs)

lemma storeLookup_insert_self (data : PropertiesData) (k : String)
    (v : PropertyRecord) : storeLookup (storeInsert data k v) k = some v := by
  induction data with
  | nil => simp [storeInsert, storeLookup]
  | cons p rest ih =>
      obtain ⟨k₀, v₀⟩ := p
      by_cases h : k₀ = k
      · simp [storeInsert, h, storeLookup]
      · simp [storeInsert, h, storeLookup, ih]

lemma storeLookup_insert_other (data : PropertiesData) (k k' : String)
    (v : PropertyRecord) (h : k' ≠ k) :
    storeLookup (storeInsert data k v) k' = storeLookup data k' := by
  induction data with
  | nil => simp [storeInsert, storeLookup, Ne.symm h]
  | cons p rest ih =>
      obtain ⟨k₀, v₀⟩ := p
      by_cases h0 : k₀ = k
      · subst h0
        simp [storeInsert, storeLookup, Ne.symm h]
      · by_cases h1 : k₀ = k'
        · subst h1
          simp [storeInsert, h0, storeLookup, h]
        · simp [storeInsert, h0, storeLookup, h1, ih, h]

lemma saveAllowed_iff (summary : List RoomRecord) (name : String) :
    saveAllowed summary name = true ↔ stripChars name ≠ "" ∧ summary ≠ [] := by
  rw [saveAllowed, Bool.and_eq_true, Bool.not_eq_true', Bool.not_eq_true',
    List.isEmpty_eq_false, List.isEmpty_eq_false, and_comm]
  constructor
  · rintro ⟨hname, hsum⟩
    exact ⟨fun hc => hname (by rw [hc]), hsum⟩
  · rintro ⟨hname, hsum⟩
    exact ⟨fun hc => hname (String.ext hc), hsum⟩

lemma savePropertyStep_refused (data : PropertiesData) (fs : FileState)
    (name : String) (summary : List RoomRecord) (total_area : ℚ)
    (h : saveAllowed summary name = false) :
    savePropertyStep data fs name summary total_area = (data, fs) := by
  simp [savePropertyStep, h]

lemma savePropertyStep_allowed (data : PropertiesData) (fs : FileState)
    (name : String) (summary : List RoomRecord) (total_area : ℚ)
    (h : saveAllowed summary name = true) :
    savePropertyStep data fs name summary total_area =
      (storeInsert data name (mkPropertyRecord summary total_area),
       FileState.stored (storeInsert data name (mkPropertyRecord summary total_area))) := by
  simp [savePropertyStep, h, save_properties]

/-- C4: saving a record under a name and then loading the store returns a
mapping that contains that name bound to a record equal to the one saved. -/
theorem store_round_trip (data : PropertiesData) (fs : FileState)
    (name : String) (rec : PropertyRecord) :
    load_properties (save_properties (storeInsert data name rec) fs) =
      Except.ok (storeInsert data name rec) ∧
    storeLookup (storeInsert data name rec) name = some rec :=
  ⟨rfl, storeLookup_insert_self data name rec⟩

/-- Counterexample to C5 as stated: a load failure on persisted data that
exists but cannot be parsed is an uncaught error, not an empty store. -/
theorem load_corrupt_is_error :
    load_properties FileState.corrupt ≠ Except.ok [] := by
  simp [load_properties]

/-- C5 amended: loading returns an empty mapping (not an error) when no
persisted file exists, and returns the stored mapping when one does; but a
failure to parse an existing file propagates as an uncaught error rather
than degrading to an empty store. -/
theorem load_missing_empty :
    load_properties FileState.missing = Except.ok [] ∧
    (∀ data, load_properties (FileState.stored data) = Except.ok data) ∧
    load_properties FileState.corrupt =
      Except.error "json.decoder.JSONDecodeError" :=
  ⟨rfl, fun _ => rfl, rfl⟩

/-- C6: the save action is refused (neither the in-memory mapping nor the
file changes) whenever the property name is empty after whitespace
trimming or the room list is empty; the guard passes exactly when the
trimmed name is non-empty and at least one room record exists, and only
then does the write happen. -/
theorem save_gating (data : PropertiesData) (fs : FileState) (name : String)
    (summary : List RoomRecord) (total_area : ℚ) :
    (saveAllowed summary name = true ↔ stripChars name ≠ "" ∧ summary ≠ []) ∧
    (saveAllowed summary name = false →
      savePropertyStep data fs name summary total_area = (data, fs)) ∧
    (saveAllowed summary name = true →
      savePropertyStep data fs name summary total_area =
        (storeInsert data name (mkPropertyRecord summary total_area),
         FileState.stored (storeInsert data name (mkPropertyRecord summary total_area)))) :=
  ⟨saveAllowed_iff summary name,
   savePropertyStep_refused data fs name summary total_area,
   savePropertyStep_allowed data fs name summary total_area⟩

/-- Witness for C6: a whitespace-only property name fails the guard and
the save step leaves the store and the file untouched. -/
theorem save_gating_witness :
    saveAllowed [demoRoomA] "   " = false ∧
    savePropertyStep [] FileState.missing "   " [demoRoomA] 80 =
      ([], FileState.missing) := by
  have h := save_gating [] FileState.missing "   " [demoRoomA] 80
  exact ⟨by decide, h.2.1 (by decide)⟩

/-- C8: for every prior store contents, saving a record under a name maps
that name to the new record and leaves the binding of every other name
unchanged (the save only inserts or overwrites the given key). -/
theorem save_frame (data : PropertiesData) (fs : FileState) (name : String)
    (summary : List RoomRecord) (total_area : ℚ)
    (hn : stripChars name ≠ "") (hr : summary ≠ []) :
    storeLookup (savePropertyStep data fs name summary total_area).1 name =
      some (mkPropertyRecord summary total_area) ∧
    ∀ k, k ≠ name →
      storeLookup (savePropertyStep data fs name summary total_area).1 k =
        storeLookup data k := by
  have hallow : saveAllowed summary name = true :=
    (saveAllowed_iff summary name).mpr ⟨hn, hr⟩
  rw [savePropertyStep_allowed data fs name summary total_area hallow]
  exact ⟨storeLookup_insert_self data name _,
    fun k hk => storeLookup_insert_other data name k _ hk⟩

/-- Witness for C8: saving "Flat A" into a store that already holds
"Other" binds "Flat A" to the new record and leaves "Other" unchanged. -/
theorem save_frame_witness :
    stripChars "Flat A" ≠ "" ∧ ([demoRoomA] : List RoomRecord) ≠ [] ∧
    storeLookup (savePropertyStep [("Other", mkPropertyRecord [demoRoomB] 35)]
        FileState.missing "Flat A" [demoRoomA] 80).1 "Flat A" =
      some (mkPropertyRecord [demoRoomA] 80) ∧
    storeLookup (savePropertyStep [("Other", mkPropertyRecord [demoRoomB] 35)]
        FileState.missing "Flat A" [demoRoomA] 80).1 "Other" =
      storeLookup [("Other", mkPropertyRecord [demoRoomB] 35)] "Other" := by
  have h := save_frame [("Other", mkPropertyRecord [demoRoomB] 35)]
    FileState.missing "Flat A" [demoRoomA] 80 (by decide) (by simp)
  exact ⟨by decide, by simp, h.1, h.2 "Other" (by decide)⟩

/-- C9: the record is stored under the exact raw name entered, without
trimming: from an empty store the key list of the result is the raw name
itself, any other string finds nothing, and saving under two names that
differ (for instance only in surrounding whitespace) creates two distinct
entries. -/
theorem save_key_untrimmed (fs fs₂ : FileState) (name : String)
    (summary : List RoomRecord) (total_area : ℚ)
    (hn : stripChars name ≠ "") (hr : summary ≠ []) :
    ((savePropertyStep [] fs name summary total_area).1.map Prod.fst = [name]) ∧
    (∀ k, k ≠ name →
      storeLookup (savePropertyStep [] fs name summary total_area).1 k = none) ∧
    (∀ name₂ summary₂ total₂, name₂ ≠ name → stripChars name₂ ≠ "" → summary₂ ≠ [] →
      storeLookup (savePropertyStep (savePropertyStep [] fs name summary total_area).1
          fs₂ name₂ summary₂ total₂).1 name =
        some (mkPropertyRecord summary total_area) ∧
      storeLookup (savePropertyStep (savePropertyStep [] fs name summary total_area).1
          fs₂ name₂ summary₂ total₂).1 name₂ =
        some (mkPropertyRecord summary₂ total₂)) := by
  have h1 : saveAllowed summary name = true := (saveAllowed_iff _ _).mpr ⟨hn, hr⟩
  rw [savePropertyStep_allowed [] fs name summary total_area h1]
  refine ⟨rfl, ?_, ?_⟩
  · intro k hk
    simp [storeInsert, storeLookup, Ne.symm hk]
  · intro name₂ summary₂ total₂ hne hn₂ hr₂
    have h2 : saveAllowed summary₂ name₂ = true := (saveAllowed_iff _ _).mpr ⟨hn₂, hr₂⟩
    rw [savePropertyStep_allowed _ fs₂ name₂ summary₂ total₂ h2]
    constructor
    · rw [storeLookup_insert_other _ name₂ name _ (Ne.symm hne)]
      simp [storeInsert, storeLookup]
    · exact storeLookup_insert_self _ name₂ _

/-- Witness for C9: saving under " Flat A " and then under "Flat A"
(differing only in surrounding whitespace) yields two distinct entries,
each found under its exact raw name. -/
theorem save_key_untrimmed_witness :
    (" Flat A " : String) ≠ "Flat A" ∧ stripChars " Flat A " ≠ "" ∧
    storeLookup (savePropertyStep (savePropertyStep [] FileState.missing
        " Flat A " [demoRoomA] 80).1 FileState.missing
        "Flat A" [demoRoomB] 35).1 " Flat A " =
      some (mkPropertyRecord [demoRoomA] 80) ∧
    storeLookup (savePropertyStep (savePropertyStep [] FileState.missing
        " Flat A " [demoRoomA] 80).1 FileState.missing
        "Flat A" [demoRoomB] 35).1 "Flat A" =
      some (mkPropertyRecord [demoRoomB] 35) := by
  have h := (save_key_untrimmed FileState.missing FileState.missing " Flat A "
    [demoRoomA] 80 (by decide) (by simp)).2.2 "Flat A" [demoRoomB] 35
    (by decide) (by decide) (by simp)
  exact ⟨by decide, by decide, h.1, h.2⟩

end HouseAreaCalc
